import Mathlib

/-!
Shallow embedding of the `Chess` contract in `src/chess.sol` (the first,
complete revision in that file; the second contract at the bottom of the
file is an earlier draft).

Modelling conventions:
* `address` is `Nat`, with `0` standing for `address(0)`.
* `uint256` is `Nat` (the quantities involved — counters, wei amounts,
  timestamps — never reach 2^256 in any scenario considered here, and
  Solidity 0.8 checked arithmetic reverts rather than wraps).
* A public function is a map from the environment (msg.sender, msg.value,
  block.timestamp, and which addresses accept an incoming value transfer)
  and the current `Game` record to `Except ChessErr (Game, List Transfer)`;
  an `.error` models a revert of the whole transaction (EVM semantics:
  no storage write survives, no value moves).
* `keccak256(abi.encodePacked(_gameId, _newFen, _result))` is modelled
  injectively as the record of its three fields (`MsgHash`); the
  `"\x19Ethereum Signed Message:\n32"` wrapping of `getEthSignedMessageHash`
  is the constructor `EthSignedHash.mk`. `ecrecover` is an abstract
  parameter (`Ecrecover`): every theorem quantifies over it, and concrete
  instantiations are used for witnesses.
* A 65-byte signature is a `List Nat` of its bytes; `splitSignature` reads
  `r` as the big-endian value of bytes 0..31, `s` as bytes 32..63, and `v`
  as byte 64, exactly as the fixed-offset `mload`s in the source do.
-/

namespace BChess

/-- An address is a `Nat`; `0` is `address(0)`. -/
abbrev Address := Nat

/-- Contract-level configuration set in the constructor:
`oracleAddress` and `moveTimeout`. -/
structure Config where
  oracleAddress : Address
  moveTimeout : Nat
deriving Repr, DecidableEq

/-- The `Game` struct of the contract, one entry of `mapping(uint256 => Game)`. -/
structure Game where
  gameId : Nat
  playerWhite : Address
  playerBlack : Address
  fen : String
  lastMoveTimestamp : Nat
  betAmount : Nat
  isActive : Bool
  isWhiteTurn : Bool
deriving Repr, DecidableEq

/-- `string public constant startingFEN`. -/
def startingFEN : String := "rnbqkbnr/pppppppp/8/8/8/8/PPPPPPPP/RNBQKBNR w KQkq - 0 1"

/-- The `Result` enum of the contract. -/
inductive GameResult where
  | InProgress
  | WhiteWon
  | BlackWon
  | Draw
deriving Repr, DecidableEq

/-- Revert causes, one per `require` / `revert` / panic site of the contract. -/
inductive ChessErr where
  /-- `require(game.isActive, "Game is not active")` in `_getActiveGame`. -/
  | gameNotActive
  /-- `require(game.playerBlack == address(0), "Game already has two players")`. -/
  | gameFull
  /-- `require(game.playerWhite != msg.sender, "Cannot join your own game")`. -/
  | cannotJoinOwnGame
  /-- `revert InvalidBetAmount(game.betAmount, msg.value)`. -/
  | invalidBetAmount (required sent : Nat)
  /-- `require(..., "Not your turn")` in `move`. -/
  | notYourTurn
  /-- `require(sig.length == 65, "invalid signature length")` in `splitSignature`. -/
  | invalidSignatureLength
  /-- `require(recoverSigner(...) == oracleAddress, "Invalid signature")` in `verifyMove`. -/
  | invalidSignature
  /-- Panic of the checked conversion `Result(_result)` when `_result > 3`. -/
  | resultOutOfRange
  /-- `require(block.timestamp >= ..., "Move timeout not reached")`. -/
  | timeoutNotReached
  /-- `require(msg.sender == ... , "Only players can call timeout")`. -/
  | onlyPlayers
  /-- `require(_recipient != address(0), "Invalid recipient")` in `_safeTransfer`. -/
  | invalidRecipient
  /-- a failed low-level value transfer (`call` in `_safeTransfer`, or
  `transfer` in `callTimeout`): `"Ether transfer failed via call"`. -/
  | transferFailed
deriving Repr, DecidableEq

/-- One outgoing value transfer performed by the contract. -/
structure Transfer where
  recipient : Address
  amount : Nat
deriving Repr, DecidableEq

/-- The execution environment of one external call: caller identity,
attached value, block timestamp, and which addresses accept an incoming
value transfer (an EOA always does; a contract recipient may revert). -/
structure Env where
  sender : Address
  value : Nat
  timestamp : Nat
  canReceive : Address → Bool

/-- `_getActiveGame`: fetch `games[_gameId]` and require it to be active. -/
def getActiveGame (g : Game) : Except ChessErr Game :=
  if g.isActive then .ok g else .error .gameNotActive

/-- `newGame()`: record a fresh game under id `gameCounter + 1`. -/
def newGame (env : Env) (gameCounter : Nat) : Game :=
  { gameId := gameCounter + 1
    playerWhite := env.sender
    playerBlack := 0
    fen := startingFEN
    lastMoveTimestamp := env.timestamp
    betAmount := env.value
    isActive := true
    isWhiteTurn := true }

/-- `joinGame(uint256 _gameId)`. Produces the updated record and the
(empty) list of outgoing transfers. A propagated `.error` is a revert. -/
def joinGame (env : Env) (g : Game) : Except ChessErr (Game × List Transfer) :=
  match getActiveGame g with
  | .error e => .error e
  | .ok game =>
    if game.playerBlack ≠ 0 then .error .gameFull
    else if game.playerWhite = env.sender then .error .cannotJoinOwnGame
    else if env.value ≠ game.betAmount then .error (.invalidBetAmount game.betAmount env.value)
    else
      .ok ({ game with playerBlack := env.sender, betAmount := game.betAmount + env.value }, [])

/-- The message hash `keccak256(abi.encodePacked(_gameId, _newFen, _result))`,
modelled injectively as the triple of hashed fields (keccak collisions are
assumed away; `abi.encodePacked(uint256, string, uint256)` is injective
because both `uint256` legs are fixed-width). -/
structure MsgHash where
  gameId : Nat
  newFen : String
  result : Nat
deriving Repr, DecidableEq

/-- `getEthSignedMessageHash`: the `"\x19Ethereum Signed Message:\n32"`
wrapping, modelled as an injective constructor. -/
structure EthSignedHash where
  inner : MsgHash
deriving Repr, DecidableEq

/-- `keccak256(abi.encodePacked(_gameId, _newFen, _result))`. -/
def messageHashOf (gameId : Nat) (newFen : String) (result : Nat) : MsgHash :=
  ⟨gameId, newFen, result⟩

/-- `getEthSignedMessageHash(bytes32 _messageHash)`. -/
def getEthSignedMessageHash (h : MsgHash) : EthSignedHash := ⟨h⟩

/-- The type of the `ecrecover` primitive: hash, v, r, s ↦ recovered address.
Kept abstract; theorems quantify over it. -/
abbrev Ecrecover := EthSignedHash → Nat → Nat → Nat → Address

/-- Big-endian value of a byte list (how `mload` reads 32 bytes as a word). -/
def bytesToNat (bs : List Nat) : Nat :=
  bs.foldl (fun acc b => acc * 256 + b) 0

/-- `splitSignature(bytes memory sig)`: requires length 65, then reads
`r` from bytes 0..31, `s` from bytes 32..63, `v` from byte 64. -/
def splitSignature (sig : List Nat) : Except ChessErr (Nat × Nat × Nat) :=
  if sig.length = 65 then
    .ok (bytesToNat (sig.take 32), bytesToNat ((sig.drop 32).take 32), sig.getD 64 0)
  else .error .invalidSignatureLength

/-- `recoverSigner(bytes32 _ethSignedMessageHash, bytes memory _signature)`. -/
def recoverSigner (ec : Ecrecover) (h : EthSignedHash) (sig : List Nat) :
    Except ChessErr Address :=
  match splitSignature sig with
  | .error e => .error e
  | .ok (r, s, v) => .ok (ec h v r s)

/-- `verifyMove(uint256 _gameId, string _newFen, uint256 _result, bytes _signature)`:
hash `(_gameId, _newFen, _result)`, recover the signer, and require it to be
the oracle. Note the session's current `fen` is **not** part of the hash. -/
def verifyMove (ec : Ecrecover) (cfg : Config) (gameId : Nat) (newFen : String)
    (result : Nat) (sig : List Nat) : Except ChessErr Bool :=
  match recoverSigner ec (getEthSignedMessageHash (messageHashOf gameId newFen result)) sig with
  | .error e => .error e
  | .ok signer => if signer = cfg.oracleAddress then .ok true else .error .invalidSignature

/-- `_safeTransfer(address payable _recipient, uint256 _amount)`:
zero-address guard, then a low-level `call` that may fail and revert. -/
def safeTransfer (env : Env) (recipient : Address) (amount : Nat) :
    Except ChessErr Transfer :=
  if recipient = 0 then .error .invalidRecipient
  else if env.canReceive recipient then .ok ⟨recipient, amount⟩
  else .error .transferFailed

/-- `payable(addr).transfer(amt)` as used in `callTimeout`: no zero-address
guard (a transfer to `address(0)` succeeds in the EVM and burns the value);
reverts when the recipient rejects the value. -/
def rawTransfer (env : Env) (recipient : Address) (amount : Nat) :
    Except ChessErr Transfer :=
  if env.canReceive recipient then .ok ⟨recipient, amount⟩
  else .error .transferFailed

/-- The checked conversion `Result(_result)` of a `uint256` into the enum:
panics (reverts) when the value exceeds the last enum member. -/
def natToGameResult : Nat → Except ChessErr GameResult
  | 0 => .ok .InProgress
  | 1 => .ok .WhiteWon
  | 2 => .ok .BlackWon
  | 3 => .ok .Draw
  | _ + 4 => .error .resultOutOfRange

/-- `proceedResult(Game storage game, Result result)`: require the game
active, deactivate it, and pay out according to the result. -/
def proceedResult (env : Env) (g : Game) (result : GameResult) :
    Except ChessErr (Game × List Transfer) :=
  if g.isActive then
    let g' := { g with isActive := false }
    match result with
    | .WhiteWon =>
        match safeTransfer env g.playerWhite g.betAmount with
        | .error e => .error e
        | .ok t => .ok (g', [t])
    | .BlackWon =>
        match safeTransfer env g.playerBlack g.betAmount with
        | .error e => .error e
        | .ok t => .ok (g', [t])
    | .Draw =>
        match safeTransfer env g.playerWhite (g.betAmount / 2) with
        | .error e => .error e
        | .ok t1 =>
          match safeTransfer env g.playerBlack (g.betAmount / 2) with
          | .error e => .error e
          | .ok t2 => .ok (g', [t1, t2])
    | .InProgress => .ok (g', [])
  else .error .gameNotActive

/-- `move(uint256 _gameId, string _newFen, uint256 _result, bytes _signature)`.
`g` is `games[_gameId]`. The conversion of the `uint256` `_result` into the
`Result` enum (`natToGameResult`) models the checked enum cast. -/
def move (ec : Ecrecover) (cfg : Config) (env : Env) (g : Game) (gameId : Nat)
    (newFen : String) (result : Nat) (sig : List Nat) :
    Except ChessErr (Game × List Transfer) :=
  match getActiveGame g with
  | .error e => .error e
  | .ok game =>
    if ((game.isWhiteTurn && env.sender == game.playerWhite) ||
        (!game.isWhiteTurn && env.sender == game.playerBlack)) then
      match verifyMove ec cfg gameId newFen result sig with
      | .error e => .error e
      | .ok _ =>
        let game1 := { game with
          fen := newFen
          lastMoveTimestamp := env.timestamp
          isWhiteTurn := !game.isWhiteTurn }
        if result ≠ 0 then
          match natToGameResult result with
          | .error e => .error e
          | .ok r => proceedResult env game1 r
        else
          .ok (game1, [])
    else .error .notYourTurn

/-- `callTimeout(uint256 _gameId)`. -/
def callTimeout (cfg : Config) (env : Env) (g : Game) :
    Except ChessErr (Game × List Transfer) :=
  match getActiveGame g with
  | .error e => .error e
  | .ok game =>
    if env.timestamp < game.lastMoveTimestamp + cfg.moveTimeout then
      .error .timeoutNotReached
    else if env.sender = game.playerWhite ∨ env.sender = game.playerBlack then
      let g' := { game with isActive := false }
      if game.isWhiteTurn then
        match rawTransfer env game.playerBlack game.betAmount with
        | .error e => .error e
        | .ok t => .ok (g', [t])
      else
        match rawTransfer env game.playerWhite game.betAmount with
        | .error e => .error e
        | .ok t => .ok (g', [t])
    else .error .onlyPlayers

/-- One external call acting on an existing game record. -/
inductive Op where
  | joinOp (env : Env)
  | moveOp (env : Env) (gameId : Nat) (newFen : String) (result : Nat) (sig : List Nat)
  | timeoutOp (env : Env)

/-- Dispatch one external call against a game record. -/
def stepOp (ec : Ecrecover) (cfg : Config) (g : Game) : Op →
    Except ChessErr (Game × List Transfer)
  | .joinOp env => joinGame env g
  | .moveOp env gameId newFen result sig => move ec cfg env g gameId newFen result sig
  | .timeoutOp env => callTimeout cfg env g

/-- EVM transaction semantics of one call: a revert leaves storage as it
was and moves no value. -/
def exec (ec : Ecrecover) (cfg : Config) (g : Game) (op : Op) : Game × List Transfer :=
  match stepOp ec cfg g op with
  | .ok r => r
  | .error _ => (g, [])

/-- Run a sequence of external calls against a game record, counting the
calls in which at least one value transfer left the contract. -/
def runCountPayouts (ec : Ecrecover) (cfg : Config) (g : Game) : List Op → Game × Nat
  | [] => (g, 0)
  | op :: ops =>
      let (g', ts) := exec ec cfg g op
      let (g'', n) := runCountPayouts ec cfg g' ops
      (g'', (if ts = [] then 0 else 1) + n)

/-! Concrete instances used by witnesses and counterexamples. -/

/-- A concrete instantiation of the abstract `ecrecover`: the recovered
address is the signature's `r` word. Under it, any 65-byte signature whose
first 32 bytes are the big-endian oracle address verifies. -/
def ecDemo : Ecrecover := fun _h _v r _s => r

/-- Oracle address 5, timeout 10 time units. -/
def cfgDemo : Config := ⟨5, 10⟩

/-- A 65-byte signature whose `r` word is 5 — a valid oracle signature
under `ecDemo` and `cfgDemo`. -/
def sigOracle5 : List Nat := List.replicate 31 0 ++ [5] ++ List.replicate 33 0

/-- A malformed 3-byte signature. -/
def sigShort : List Nat := [1, 2, 3]

/-- A game created by player 1 with stake 50 that nobody ever joined. -/
def unjoinedGame : Game := ⟨1, 1, 0, startingFEN, 0, 50, true, true⟩

/-- A game between players 1 (white) and 2 (black), total pot 100, still at
the initial position, white to move. -/
def freshJoinedGame : Game := ⟨1, 1, 2, startingFEN, 0, 100, true, true⟩

/-- The same game after one accepted move: fen differs from the initial
position, black to move. -/
def midGame : Game :=
  ⟨1, 1, 2, "rnbqkbnr/pppppppp/8/8/4P3/8/PPPP1PPP/RNBQKBNR b KQkq e3 0 1", 3, 100, true, false⟩

/-- Player 1 calling at timestamp 3 (before the deadline `0 + 10`). -/
def envEarly : Env := ⟨1, 0, 3, fun _ => true⟩

/-- Player 1 calling at timestamp 100 (past any deadline involved here). -/
def envLate : Env := ⟨1, 0, 100, fun _ => true⟩

/-- Player 2 calling at timestamp 100. -/
def envBlackLate : Env := ⟨2, 0, 100, fun _ => true⟩

/-- Player 1 calling at timestamp 3, in a world where no recipient accepts
an incoming transfer. -/
def envNoReceive : Env := ⟨1, 0, 3, fun _ => false⟩

end BChess

namespace BChess

/-! Helper lemmas shared by the claim theorems. -/

theorem getActiveGame_ok {g game : Game} (h : getActiveGame g = .ok game) :
    g.isActive = true ∧ game = g := by
  unfold getActiveGame at h
  split at h <;> simp_all

theorem joinGame_ok {env : Env} {g g' : Game} {ts : List Transfer}
    (h : joinGame env g = .ok (g', ts)) :
    g.isActive = true ∧ ts = [] ∧ g'.isActive = true := by
  unfold joinGame at h
  split at h
  · exact absurd h (by simp)
  · next game heq =>
    obtain ⟨hA, rfl⟩ := getActiveGame_ok heq
    split at h
    · exact absurd h (by simp)
    · split at h
      · exact absurd h (by simp)
      · split at h
        · exact absurd h (by simp)
        · injection h with h1
          injection h1 with hg hts
          subst hg
          exact ⟨hA, hts.symm, hA⟩

theorem safeTransfer_ok {env : Env} {r a : Nat} {t : Transfer}
    (h : safeTransfer env r a = .ok t) :
    t = ⟨r, a⟩ ∧ r ≠ 0 ∧ env.canReceive r = true := by
  unfold safeTransfer at h
  split at h
  · exact absurd h (by simp)
  · split at h
    · injection h with h1
      exact ⟨h1.symm, by assumption, by assumption⟩
    · exact absurd h (by simp)

theorem rawTransfer_ok {env : Env} {r a : Nat} {t : Transfer}
    (h : rawTransfer env r a = .ok t) :
    t = ⟨r, a⟩ ∧ env.canReceive r = true := by
  unfold rawTransfer at h
  split at h
  · injection h with h1
    exact ⟨h1.symm, by assumption⟩
  · exact absurd h (by simp)

theorem proceedResult_ok {env : Env} {g g' : Game} {result : GameResult}
    {ts : List Transfer} (h : proceedResult env g result = .ok (g', ts)) :
    g.isActive = true ∧ g' = { g with isActive := false } ∧
      (ts = [] ↔ result = .InProgress) := by
  unfold proceedResult at h
  split at h
  · next hA =>
    cases result <;> simp only at h
    · injection h with h1
      injection h1 with hg hts
      exact ⟨hA, hg.symm, by simp [hts.symm]⟩
    · split at h
      · exact absurd h (by simp)
      · injection h with h1
        injection h1 with hg hts
        exact ⟨hA, hg.symm, by simp [hts.symm]⟩
    · split at h
      · exact absurd h (by simp)
      · injection h with h1
        injection h1 with hg hts
        exact ⟨hA, hg.symm, by simp [hts.symm]⟩
    · split at h
      · exact absurd h (by simp)
      · split at h
        · exact absurd h (by simp)
        · injection h with h1
          injection h1 with hg hts
          exact ⟨hA, hg.symm, by simp [hts.symm]⟩
  · exact absurd h (by simp)

theorem natToGameResult_ok_ne_zero {res : Nat} {r : GameResult}
    (hres : res ≠ 0) (h : natToGameResult res = .ok r) : r ≠ .InProgress := by
  match res with
  | 0 => exact absurd rfl hres
  | 1 => injection h with h1; subst h1; simp
  | 2 => injection h with h1; subst h1; simp
  | 3 => injection h with h1; subst h1; simp
  | n + 4 => exact absurd h (by simp [natToGameResult])

theorem move_ok {ec : Ecrecover} {cfg : Config} {env : Env} {g g' : Game}
    {gameId : Nat} {newFen : String} {result : Nat} {sig : List Nat}
    {ts : List Transfer}
    (h : move ec cfg env g gameId newFen result sig = .ok (g', ts)) :
    g.isActive = true ∧ (ts ≠ [] ↔ g'.isActive = false) := by
  unfold move at h
  split at h
  · exact absurd h (by simp)
  · next game heq =>
    obtain ⟨hA, rfl⟩ := getActiveGame_ok heq
    split at h
    · split at h
      · exact absurd h (by simp)
      · split at h
        · next hres =>
          split at h
          · exact absurd h (by simp)
          · next r hr =>
            obtain ⟨_, hg, hts⟩ := proceedResult_ok h
            refine ⟨hA, ?_⟩
            subst hg
            have hr' := natToGameResult_ok_ne_zero hres hr
            have hne : ts ≠ [] := fun hcon => hr' (hts.mp hcon)
            simp [hne]
        · injection h with h1
          injection h1 with hg hts
          subst hg
          simp [← hts, hA]
    · exact absurd h (by simp)

theorem callTimeout_ok {cfg : Config} {env : Env} {g g' : Game}
    {ts : List Transfer} (h : callTimeout cfg env g = .ok (g', ts)) :
    g.isActive = true ∧ g' = { g with isActive := false } ∧
      g.lastMoveTimestamp + cfg.moveTimeout ≤ env.timestamp ∧
      (env.sender = g.playerWhite ∨ env.sender = g.playerBlack) ∧
      ts = [⟨if g.isWhiteTurn then g.playerBlack else g.playerWhite, g.betAmount⟩] := by
  unfold callTimeout at h
  split at h
  · exact absurd h (by simp)
  · next game heq =>
    obtain ⟨hA, rfl⟩ := getActiveGame_ok heq
    split at h
    · exact absurd h (by simp)
    · next hdl =>
      split at h
      · next hplayer =>
        split at h
        · next hturn =>
          split at h
          · exact absurd h (by simp)
          · next t hraw =>
            obtain ⟨rfl, _⟩ := rawTransfer_ok hraw
            injection h with h1
            injection h1 with hg hts
            exact ⟨hA, hg.symm, Nat.le_of_not_lt hdl, hplayer, by simp [← hts, hturn]⟩
        · next hturn =>
          simp only [Bool.not_eq_true] at hturn
          split at h
          · exact absurd h (by simp)
          · next t hraw =>
            obtain ⟨rfl, _⟩ := rawTransfer_ok hraw
            injection h with h1
            injection h1 with hg hts
            exact ⟨hA, hg.symm, Nat.le_of_not_lt hdl, hplayer, by simp [← hts, hturn]⟩
      · exact absurd h (by simp)

theorem stepOp_ok {ec : Ecrecover} {cfg : Config} {g g' : Game} {op : Op}
    {ts : List Transfer} (h : stepOp ec cfg g op = .ok (g', ts)) :
    g.isActive = true ∧ (ts ≠ [] ↔ g'.isActive = false) := by
  cases op with
  | joinOp env =>
    obtain ⟨hA, hts, hA'⟩ := joinGame_ok h
    exact ⟨hA, by simp [hts, hA']⟩
  | moveOp env gameId newFen result sig => exact move_ok h
  | timeoutOp env =>
    obtain ⟨hA, hg, _, _, hts⟩ := callTimeout_ok h
    exact ⟨hA, by simp [hts, hg]⟩

theorem stepOp_inactive {ec : Ecrecover} {cfg : Config} {g : Game} (op : Op)
    (h : g.isActive = false) :
    stepOp ec cfg g op = .error .gameNotActive := by
  cases op <;> simp [stepOp, joinGame, move, callTimeout, getActiveGame, h]

theorem exec_of_error {ec : Ecrecover} {cfg : Config} {g : Game} {op : Op}
    {e : ChessErr} (h : stepOp ec cfg g op = .error e) :
    exec ec cfg g op = (g, []) := by
  simp [exec, h]

theorem runCountPayouts_inactive {ec : Ecrecover} {cfg : Config} {g : Game}
    (ops : List Op) (h : g.isActive = false) :
    runCountPayouts ec cfg g ops = (g, 0) := by
  induction ops with
  | nil => rfl
  | cons op ops ih =>
    simp [runCountPayouts, exec_of_error (stepOp_inactive op h), ih]

theorem runCountPayouts_le_one {ec : Ecrecover} {cfg : Config} (g : Game)
    (ops : List Op) : (runCountPayouts ec cfg g ops).2 ≤ 1 := by
  induction ops generalizing g with
  | nil => simp [runCountPayouts]
  | cons op ops ih =>
    rcases hE : stepOp ec cfg g op with e | ⟨g', ts⟩
    · simpa [runCountPayouts, exec_of_error hE] using ih g
    · by_cases hts : ts = []
      · subst hts
        simpa [runCountPayouts, exec, hE] using ih g'
      · have hdead : g'.isActive = false := (stepOp_ok hE).2.mp hts
        simp [runCountPayouts, exec, hE, hts, runCountPayouts_inactive ops hdead]

/-- C1: the claim says a timeout on a never-joined session refunds `partyA`
in full and cancels the session. The code instead takes the generic
`isWhiteTurn` branch: with `playerBlack = address(0)` and white on turn, the
full stake is transferred to the zero address (burned), not to the creator.
This theorem evaluates `callTimeout` at such a session: player 1 created it
with stake 50, nobody joined, the deadline passed, player 1 calls — the one
outgoing transfer goes to address `0`, which is not `playerWhite`. -/
theorem unjoined_timeout_sends_stake_to_zero_address :
    callTimeout cfgDemo envLate unjoinedGame =
      .ok ({ unjoinedGame with isActive := false }, [⟨0, 50⟩]) ∧
    unjoinedGame.playerWhite = 1 ∧ (0 : Address) ≠ unjoinedGame.playerWhite :=
  ⟨rfl, rfl, by decide⟩

/-- C2 counterexample: the claim says a signature issued for a transition
from a different prior position is always rejected. Here one and the same
oracle signature is accepted by `move` in two sessions whose current (prior)
positions differ — the signed message covers only `(gameId, newFen, result)`
and never the session's current `fen`, so no such rejection happens. -/
theorem same_signature_accepted_for_two_prior_states :
    freshJoinedGame.fen ≠ "4k3/8/8/8/8/8/8/4K3 w - - 0 1" ∧
    move ecDemo cfgDemo envEarly freshJoinedGame 1 "newfen" 0 sigOracle5 =
      .ok ({ freshJoinedGame with
              fen := "newfen", lastMoveTimestamp := 3, isWhiteTurn := false }, []) ∧
    move ecDemo cfgDemo envEarly
        { freshJoinedGame with fen := "4k3/8/8/8/8/8/8/4K3 w - - 0 1" }
        1 "newfen" 0 sigOracle5 =
      .ok ({ freshJoinedGame with
              fen := "newfen", lastMoveTimestamp := 3, isWhiteTurn := false }, []) :=
  ⟨by decide, rfl, rfl⟩

/-- C2 amended: `move` binds the accepted signature to `(gameId, newFen,
result)` only; the session's current (prior) position is not part of the
signed message, so the outcome of `move` — acceptance and resulting state
alike — is completely independent of the prior `fen`. -/
theorem move_independent_of_prior_fen (ec : Ecrecover) (cfg : Config)
    (env : Env) (g : Game) (f1 f2 : String) (gameId : Nat) (newFen : String)
    (result : Nat) (sig : List Nat) :
    move ec cfg env { g with fen := f1 } gameId newFen result sig =
    move ec cfg env { g with fen := f2 } gameId newFen result sig := by
  cases g with
  | mk gid w b f lts bet act turn => cases act <;> rfl

/-- C3: in every successful operation on a session, value leaves the escrow
if and only if that same operation deactivates the session (its transition
into the terminal `isActive = false` state); a successful operation moreover
requires the session to still be active, so no payout can happen on an
already-terminal session. Consequently, over any sequence of operations,
at most one operation pays out. -/
theorem stake_paid_exactly_once_at_finalization (ec : Ecrecover) (cfg : Config) :
    (∀ g op g' ts, stepOp ec cfg g op = .ok (g', ts) →
        g.isActive = true ∧ (ts ≠ [] ↔ g'.isActive = false)) ∧
    (∀ g ops, (runCountPayouts ec cfg g ops).2 ≤ 1) :=
  ⟨fun _ _ _ _ h => stepOp_ok h, fun g ops => runCountPayouts_le_one g ops⟩

/-- Witness for C3: a concrete successful timeout pays out and deactivates,
and a concrete two-operation trace pays out at most once. -/
theorem stake_paid_exactly_once_at_finalization_witness :
    (freshJoinedGame.isActive = true ∧
      (([⟨2, 100⟩] : List Transfer) ≠ [] ↔
        ({ freshJoinedGame with isActive := false } : Game).isActive = false)) ∧
    (runCountPayouts ecDemo cfgDemo freshJoinedGame
        [Op.timeoutOp envLate, Op.timeoutOp envLate]).2 ≤ 1 :=
  ⟨(stake_paid_exactly_once_at_finalization ecDemo cfgDemo).1 freshJoinedGame
      (Op.timeoutOp envLate) { freshJoinedGame with isActive := false }
      [⟨2, 100⟩] (by rfl),
   (stake_paid_exactly_once_at_finalization ecDemo cfgDemo).2 freshJoinedGame
      [Op.timeoutOp envLate, Op.timeoutOp envLate]⟩

/-- C4: once a session is terminal (`isActive = false`), every public
operation on it — `joinGame`, `move`, `callTimeout` — reverts with the
`"Game is not active"` error, and the transaction leaves the session record
unchanged and moves no value. -/
theorem terminal_session_rejects_every_op (ec : Ecrecover) (cfg : Config)
    (g : Game) (op : Op) (h : g.isActive = false) :
    stepOp ec cfg g op = .error .gameNotActive ∧ exec ec cfg g op = (g, []) :=
  ⟨stepOp_inactive op h, exec_of_error (stepOp_inactive op h)⟩

/-- Witness for C4 on a concrete finished game and a concrete join attempt. -/
theorem terminal_session_rejects_every_op_witness :
    stepOp ecDemo cfgDemo { freshJoinedGame with isActive := false }
        (Op.joinOp envEarly) = .error .gameNotActive ∧
    exec ecDemo cfgDemo { freshJoinedGame with isActive := false }
        (Op.joinOp envEarly) = ({ freshJoinedGame with isActive := false }, []) :=
  terminal_session_rejects_every_op ecDemo cfgDemo
    { freshJoinedGame with isActive := false } (Op.joinOp envEarly) (by rfl)

/-- C5: for an active session with both parties joined and at least one
accepted move (`fen` differs from the initial position), `callTimeout`
strictly before `lastMoveTimestamp + moveTimeout` reverts with the
`"Move timeout not reached"` error; at or after the deadline, called by one
of the two players (with the recipient able to receive the transfer), it
succeeds and transfers the full stake to the party NOT on turn, deactivating
the session. -/
theorem timeout_deadline_and_forfeit (cfg : Config) (env : Env) (g : Game)
    (hA : g.isActive = true) (hB : g.playerBlack ≠ 0)
    (hf : g.fen ≠ startingFEN) :
    (env.timestamp < g.lastMoveTimestamp + cfg.moveTimeout →
      callTimeout cfg env g = .error .timeoutNotReached) ∧
    (g.lastMoveTimestamp + cfg.moveTimeout ≤ env.timestamp →
      (env.sender = g.playerWhite ∨ env.sender = g.playerBlack) →
      env.canReceive (if g.isWhiteTurn then g.playerBlack else g.playerWhite) = true →
      callTimeout cfg env g =
        .ok ({ g with isActive := false },
             [⟨if g.isWhiteTurn then g.playerBlack else g.playerWhite,
               g.betAmount⟩])) := by
  constructor
  · intro hlt
    simp [callTimeout, getActiveGame, hA, hlt]
  · intro hge hs hcr
    have hnlt : ¬ env.timestamp < g.lastMoveTimestamp + cfg.moveTimeout :=
      Nat.not_lt.mpr hge
    cases ht : g.isWhiteTurn
    · simp only [ht, Bool.false_eq_true, if_false] at hcr
      simp [callTimeout, getActiveGame, rawTransfer, hA, hnlt, hs, ht, hcr]
    · simp only [ht, if_true] at hcr
      simp [callTimeout, getActiveGame, rawTransfer, hA, hnlt, hs, ht, hcr]

/-- Witness for C5 on a concrete mid-game session: an early call by white
reverts; a late call by black succeeds and pays the full 100 pot to white
(black held the turn and forfeits). -/
theorem timeout_deadline_and_forfeit_witness :
    callTimeout cfgDemo envEarly midGame = .error .timeoutNotReached ∧
    callTimeout cfgDemo envBlackLate midGame =
      .ok ({ midGame with isActive := false }, [⟨1, 100⟩]) := by
  constructor
  · exact (timeout_deadline_and_forfeit cfgDemo envEarly midGame (by rfl)
      (by decide) (by decide)).1 (by decide)
  · have h := (timeout_deadline_and_forfeit cfgDemo envBlackLate midGame (by rfl)
      (by decide) (by decide)).2 (by decide) (Or.inr (by rfl)) (by rfl)
    simpa using h

/-- C6 counterexample: the claim says a post-deadline timeout on a session
still at the initial position (both parties joined, no move ever accepted)
finalizes as a draw, splitting the stake. Evaluating `callTimeout` on such a
session (pot 100) after the deadline: the whole 100 goes to player 2 (black)
in a single transfer — not the two-way 50/50 split of a draw. -/
theorem timeout_at_initial_position_is_not_a_draw :
    callTimeout cfgDemo envLate freshJoinedGame =
      .ok ({ freshJoinedGame with isActive := false }, [⟨2, 100⟩]) ∧
    ([⟨2, 100⟩] : List Transfer) ≠ [⟨1, 50⟩, ⟨2, 50⟩] :=
  ⟨rfl, by decide⟩

/-- C6 amended: there is no initial-position special case in `callTimeout`.
For an active session with both parties joined that is still at the initial
position (so white, who has never moved, is on turn), a post-deadline
timeout call by either player takes the ordinary forfeit branch: the full
stake is transferred to `playerBlack` and the session is deactivated. -/
theorem timeout_at_initial_position_forfeits_white (cfg : Config) (env : Env)
    (g : Game) (hA : g.isActive = true) (hB : g.playerBlack ≠ 0)
    (hf : g.fen = startingFEN) (ht : g.isWhiteTurn = true)
    (hdl : g.lastMoveTimestamp + cfg.moveTimeout ≤ env.timestamp)
    (hs : env.sender = g.playerWhite ∨ env.sender = g.playerBlack)
    (hcr : env.canReceive g.playerBlack = true) :
    callTimeout cfg env g =
      .ok ({ g with isActive := false }, [⟨g.playerBlack, g.betAmount⟩]) := by
  have hnlt : ¬ env.timestamp < g.lastMoveTimestamp + cfg.moveTimeout :=
    Nat.not_lt.mpr hdl
  simp [callTimeout, getActiveGame, rawTransfer, hA, hnlt, hs, ht, hcr]

/-- Witness for the amended C6 on the concrete initial-position session. -/
theorem timeout_at_initial_position_forfeits_white_witness :
    callTimeout cfgDemo envLate freshJoinedGame =
      .ok ({ freshJoinedGame with isActive := false }, [⟨2, 100⟩]) :=
  timeout_at_initial_position_forfeits_white cfgDemo envLate freshJoinedGame
    (by rfl) (by decide) (by rfl) (by rfl) (by decide) (Or.inl (by rfl)) (by rfl)

/-- C7: every operation is atomic. First, whenever an operation reverts with
any error, the transaction leaves the session record exactly as it was and
moves no value. Second, specifically, when every validation of `move`
passes but the payout transfer during finalization fails (recipient rejects
the funds), the whole call reverts with the transfer error and the terminal
status transition is rolled back too: the session stays exactly as before,
still active. -/
theorem ops_atomic_on_failure (ec : Ecrecover) (cfg : Config) :
    (∀ g op e, stepOp ec cfg g op = .error e → exec ec cfg g op = (g, [])) ∧
    (∀ env g gameId newFen result sig,
      g.isActive = true →
      ((g.isWhiteTurn && env.sender == g.playerWhite) ||
        (!g.isWhiteTurn && env.sender == g.playerBlack)) = true →
      verifyMove ec cfg gameId newFen result sig = .ok true →
      result = 1 →
      g.playerWhite ≠ 0 →
      env.canReceive g.playerWhite = false →
      move ec cfg env g gameId newFen result sig = .error .transferFailed ∧
      exec ec cfg g (Op.moveOp env gameId newFen result sig) = (g, [])) := by
  constructor
  · exact fun _ _ _ h => exec_of_error h
  · intro env g gameId newFen result sig hA hturn hver hres hw hcr
    subst hres
    have hmove : move ec cfg env g gameId newFen 1 sig = .error .transferFailed := by
      simp [move, getActiveGame, hA, hturn, hver, natToGameResult, proceedResult,
        safeTransfer, hw, hcr]
    exact ⟨hmove, by simp [exec, stepOp, hmove]⟩

/-- Witness for C7: a concrete reverting join leaves the record untouched,
and a concrete fully-validated winning move whose payout recipient rejects
the transfer reverts as a whole, keeping the session active. -/
theorem ops_atomic_on_failure_witness :
    exec ecDemo cfgDemo freshJoinedGame (Op.joinOp envEarly) =
      (freshJoinedGame, []) ∧
    move ecDemo cfgDemo envNoReceive freshJoinedGame 1 "newfen" 1 sigOracle5 =
      .error .transferFailed ∧
    exec ecDemo cfgDemo freshJoinedGame
      (Op.moveOp envNoReceive 1 "newfen" 1 sigOracle5) = (freshJoinedGame, []) := by
  refine ⟨(ops_atomic_on_failure ecDemo cfgDemo).1 freshJoinedGame
      (Op.joinOp envEarly) .gameFull (by rfl), ?_⟩
  exact (ops_atomic_on_failure ecDemo cfgDemo).2 envNoReceive freshJoinedGame
    1 "newfen" 1 sigOracle5 (by rfl) (by rfl) (by rfl) rfl (by decide) (by rfl)

/-- C8: a `move` submitted while the session is active by any identity other
than the party on turn reverts with the `"Not your turn"` error, for every
signature argument whatsoever (valid oracle signatures included), and the
transaction leaves the record unchanged. -/
theorem wrong_turn_move_rejected (ec : Ecrecover) (cfg : Config) (env : Env)
    (g : Game) (gameId : Nat) (newFen : String) (result : Nat) (sig : List Nat)
    (hA : g.isActive = true)
    (hs : env.sender ≠ (if g.isWhiteTurn then g.playerWhite else g.playerBlack)) :
    move ec cfg env g gameId newFen result sig = .error .notYourTurn ∧
    exec ec cfg g (Op.moveOp env gameId newFen result sig) = (g, []) := by
  have hturn : ((g.isWhiteTurn && env.sender == g.playerWhite) ||
      (!g.isWhiteTurn && env.sender == g.playerBlack)) = false := by
    cases ht : g.isWhiteTurn
    · simp only [ht, Bool.false_eq_true, if_false] at hs
      simp [ht, hs]
    · simp only [ht, if_true] at hs
      simp [ht, hs]
  have hmove : move ec cfg env g gameId newFen result sig = .error .notYourTurn := by
    simp [move, getActiveGame, hA, hturn]
  exact ⟨hmove, by simp [exec, stepOp, hmove]⟩

/-- Witness for C8: player 2 (black) attempts a move while white is on turn,
carrying a perfectly valid oracle signature; the call reverts with the
authorization error and nothing changes. -/
theorem wrong_turn_move_rejected_witness :
    move ecDemo cfgDemo envBlackLate freshJoinedGame 1 "newfen" 0 sigOracle5 =
      .error .notYourTurn ∧
    exec ecDemo cfgDemo freshJoinedGame
      (Op.moveOp envBlackLate 1 "newfen" 0 sigOracle5) = (freshJoinedGame, []) :=
  wrong_turn_move_rejected ecDemo cfgDemo envBlackLate freshJoinedGame
    1 "newfen" 0 sigOracle5 (by rfl) (by decide)

/-- C9: finalizing a session as a draw pays each party exactly
`betAmount / 2` in integer division; when the pot is odd the two payouts sum
to `betAmount - betAmount % 2`, so the 1-unit remainder is paid to neither
party and stays locked in the contract. -/
theorem draw_finalization_splits_floor (env : Env) (g : Game)
    (hA : g.isActive = true) (hw : g.playerWhite ≠ 0) (hb : g.playerBlack ≠ 0)
    (hcw : env.canReceive g.playerWhite = true)
    (hcb : env.canReceive g.playerBlack = true) :
    proceedResult env g .Draw =
      .ok ({ g with isActive := false },
           [⟨g.playerWhite, g.betAmount / 2⟩, ⟨g.playerBlack, g.betAmount / 2⟩]) ∧
    g.betAmount / 2 + g.betAmount / 2 = g.betAmount - g.betAmount % 2 := by
  constructor
  · simp [proceedResult, safeTransfer, hA, hw, hb, hcw, hcb]
  · have := Nat.div_add_mod g.betAmount 2
    omega

/-- Witness for C9 on a concrete odd pot of 101: each player receives 50 and
the paid total is 100, one unit short of the pot. -/
theorem draw_finalization_splits_floor_witness :
    proceedResult envEarly { freshJoinedGame with betAmount := 101 } .Draw =
      .ok ({ freshJoinedGame with betAmount := 101, isActive := false },
           [⟨1, 50⟩, ⟨2, 50⟩]) ∧
    (101 : Nat) / 2 + 101 / 2 = 101 - 101 % 2 := by
  have h := draw_finalization_splits_floor envEarly
    { freshJoinedGame with betAmount := 101 } (by rfl) (by decide) (by decide)
    (by rfl) (by rfl)
  exact ⟨h.1, h.2⟩

/-- C10: a `move` whose signature argument is not exactly 65 bytes long can
never be accepted: `splitSignature` validates the length explicitly and
reverts with the `"invalid signature length"` error rather than decoding
malformed bytes, so the whole call fails with some error and the transaction
leaves the session record unchanged. -/
theorem malformed_signature_rejected (ec : Ecrecover) (cfg : Config) (env : Env)
    (g : Game) (gameId : Nat) (newFen : String) (result : Nat) (sig : List Nat)
    (h : sig.length ≠ 65) :
    splitSignature sig = .error .invalidSignatureLength ∧
    (∃ e, move ec cfg env g gameId newFen result sig = .error e) ∧
    exec ec cfg g (Op.moveOp env gameId newFen result sig) = (g, []) := by
  have hsplit : splitSignature sig = .error .invalidSignatureLength := by
    simp [splitSignature, h]
  have hmove : ∃ e, move ec cfg env g gameId newFen result sig = .error e := by
    unfold move
    cases hga : getActiveGame g with
    | error e => exact ⟨e, rfl⟩
    | ok game =>
      have hver : verifyMove ec cfg gameId newFen result sig =
          .error .invalidSignatureLength := by
        simp [verifyMove, recoverSigner, hsplit]
      by_cases hturn : ((game.isWhiteTurn && env.sender == game.playerWhite) ||
          (!game.isWhiteTurn && env.sender == game.playerBlack)) = true
      · refine ⟨.invalidSignatureLength, ?_⟩
        simp [hturn, hver]
      · refine ⟨.notYourTurn, ?_⟩
        simp [hturn]
  obtain ⟨e, he⟩ := hmove
  exact ⟨hsplit, ⟨e, he⟩, by simp [exec, stepOp, he]⟩

/-- Witness for C10 on a concrete 3-byte signature. -/
theorem malformed_signature_rejected_witness :
    splitSignature sigShort = .error .invalidSignatureLength ∧
    (∃ e, move ecDemo cfgDemo envEarly freshJoinedGame 1 "newfen" 0 sigShort =
      .error e) ∧
    exec ecDemo cfgDemo freshJoinedGame
      (Op.moveOp envEarly 1 "newfen" 0 sigShort) = (freshJoinedGame, []) :=
  malformed_signature_rejected ecDemo cfgDemo envEarly freshJoinedGame
    1 "newfen" 0 sigShort (by decide)

end BChess
